import Mathlib

/-!
Shallow embedding of src/lite/examples/object_detection/raspberry_pi/detect_picamera.py.

Conventions of the embedding: Python floats are modelled as rationals; the
Python dict keyed by non-negative integers is modelled as an insertion-ordered
association list with in-place overwrite (Python dict assignment semantics);
fallible Python code is modelled with Except or Option (ZeroDivisionError in
findPoints, KeyError in findLabels, argparse errors that terminate the process
with exit status 2 in the configuration validation).  The TFLite interpreter is
an external collaborator: its four output tensors (boxes, classes, scores,
count) are parameters of the functions that consume them.
-/

deriving instance DecidableEq for Except

namespace DetectPicamera

/-- Python whitespace class, the characters stripped by str.strip and matched
by the regex whitespace escape: space, tab, newline, carriage return, vertical
tab, form feed. -/
def pySpaceChar (c : Char) : Bool :=
  c = ' ' || c = '\t' || c = '\n' || c = '\r' || c = '\x0b' || c = '\x0c'

/-- Python str.strip: drop leading and trailing whitespace. -/
def pyStrip (s : String) : String :=
  String.mk (((s.toList.dropWhile pySpaceChar).reverse.dropWhile pySpaceChar).reverse)

/-- A character matched by the separator class of load_labels: colon or
whitespace. -/
def isSepChar (c : Char) : Bool := c = ':' || pySpaceChar c

/-- Drop a maximal run of separator characters (the greedy one-or-more match of
the separator class). -/
def dropSeps : List Char → List Char
  | [] => []
  | c :: cs => if isSepChar c then dropSeps cs else c :: cs

/-- Split a character list at the first run of separator characters, if any:
everything before the run, and optionally everything after it. -/
def reSplit1Aux : List Char → List Char × Option (List Char)
  | [] => ([], none)
  | c :: cs =>
      if isSepChar c then ([], some (dropSeps cs))
      else
        let p := reSplit1Aux cs
        (c :: p.1, p.2)

/-- Python re.split on the colon-or-whitespace-run pattern with maxsplit one:
at most two fields.  The second component is none when the line has a single
field (no separator occurs). -/
def reSplit1 (s : String) : String × Option String :=
  let p := reSplit1Aux s.toList
  (String.mk p.1, p.2.map String.mk)

/-- Python str.isdigit, restricted to ASCII digits: non-empty and all digits. -/
def pyIsDigit (s : String) : Bool := !s.isEmpty && s.toList.all Char.isDigit

/-- Value of a string of ASCII digits. -/
def digitsToNat (ds : List Char) : Nat := ds.foldl (fun a c => a * 10 + (c.toNat - 48)) 0

/-- Python int applied to a digit string (load_labels guards the call with
isdigit, so only digit strings reach it). -/
def pyInt (s : String) : Nat := digitsToNat s.toList

/-- Python dict assignment d[k] = v on an insertion-ordered dict: an existing
binding is overwritten in place, a new key is appended. -/
def dictInsert (m : List (Nat × String)) (k : Nat) (v : String) : List (Nat × String) :=
  if m.any (fun p => p.1 == k) then m.map (fun p => if p.1 == k then (k, v) else p)
  else m ++ [(k, v)]

/-- Python dict lookup d[k]; none models a KeyError. -/
def dictGet (m : List (Nat × String)) (k : Nat) : Option String :=
  (m.find? (fun p => p.1 == k)).map Prod.snd

/-- One iteration of the load_labels loop body, detect_picamera.py lines 58-63:
split the stripped line at the first separator run; with two fields and a digit
first field, bind int(first) to the stripped remainder; otherwise bind the
physical row number to the stripped first field. -/
def loadLabelsLine (labels : List (Nat × String)) (row_number : Nat) (content : String) :
    List (Nat × String) :=
  match reSplit1 (pyStrip content) with
  | (f, some rest) =>
      if pyIsDigit (pyStrip f) then dictInsert labels (pyInt f) (pyStrip rest)
      else dictInsert labels row_number (pyStrip f)
  | (f, none) => dictInsert labels row_number (pyStrip f)

/-- The enumerate loop of load_labels, carrying the running row number. -/
def loadLabelsAux (row_number : Nat) (labels : List (Nat × String)) :
    List String → List (Nat × String)
  | [] => labels
  | content :: rest => loadLabelsAux (row_number + 1) (loadLabelsLine labels row_number content) rest

/-- load_labels, detect_picamera.py lines 53-64, applied to the lines read from
the label file. -/
def load_labels (lines : List String) : List (Nat × String) := loadLabelsAux 0 [] lines

/-- One row of the boxes output tensor, in the model's relative coordinates and
its fixed element order (ymin, xmin, ymax, xmax); the four indices read at
detect_picamera.py lines 123-126. -/
structure Box where
  ymin : Rat
  xmin : Rat
  ymax : Rat
  xmax : Rat
deriving DecidableEq

/-- One detection result dictionary, detect_picamera.py lines 94-98.  The
classes tensor is float-valued in the model, but every value that reaches the
label lookup is a non-negative integer (Python dict lookup identifies the float
17.0 with the int key 17), so class_id is modelled as Nat. -/
structure DetectionRecord where
  bounding_box : Box
  class_id : Nat
  score : Rat
deriving DecidableEq

/-- The record the loop of detect_objects builds for index i (out-of-range
indices, which would raise IndexError in Python, default to zero entries). -/
def recordAt (boxes : List Box) (classes : List Nat) (scores : List Rat) (i : Nat) :
    DetectionRecord :=
  { bounding_box := boxes.getD i ⟨0, 0, 0, 0⟩
    class_id := classes.getD i 0
    score := scores.getD i 0 }

/-- detect_objects, detect_picamera.py lines 80-100, abstracted over the four
output tensors of the interpreter (boxes, classes, scores, and count, the last
cast from float to int): for each i in range(count), keep the record for i when
scores[i] >= threshold, preserving index order. -/
def detect_objects (boxes : List Box) (classes : List Nat) (scores : List Rat)
    (count : Nat) (threshold : Rat) : List DetectionRecord :=
  (List.range count).filterMap fun i =>
    if threshold ≤ scores.getD i 0 then some (recordAt boxes classes scores i) else none

/-- The first count records, in model output order, before threshold
filtering. -/
def truncatedRecords (boxes : List Box) (classes : List Nat) (scores : List Rat)
    (count : Nat) : List DetectionRecord :=
  (List.range count).map (recordAt boxes classes scores)

/-- The spec's reduce_point (section 4.4): x = xmin/xmax and y = ymin/ymax on
the relative coordinates of one box, packaged as the two-element list [x, y]
that the code publishes. -/
def reduce_point (b : Box) : List Rat := [b.xmin / b.xmax, b.ymin / b.ymax]

/-- findPoints, detect_picamera.py lines 119-133: return on the first element
of the coordinate list the pair [xmin/xmax, ymin/ymax]; fall through to an
implicit None on an empty list.  Except.error models the ZeroDivisionError
Python raises when xmax (computed first) or ymax is zero. -/
def findPoints (coordinates : List Box) : Except Unit (Option (List Rat)) :=
  match coordinates with
  | [] => Except.ok none
  | coordinate :: _ =>
      if coordinate.xmax = 0 then Except.error ()
      else if coordinate.ymax = 0 then Except.error ()
      else Except.ok (some [coordinate.xmin / coordinate.xmax, coordinate.ymin / coordinate.ymax])

/-- findLabels, detect_picamera.py lines 135-143: return the label of the first
result; fall through to an implicit None on an empty list.  Except.error models
the KeyError raised when the class id is missing from the label table. -/
def findLabels (results : List DetectionRecord) (labels : List (Nat × String)) :
    Except Unit (Option String) :=
  match results with
  | [] => Except.ok none
  | result :: _ =>
      match dictGet labels result.class_id with
      | some label => Except.ok (some label)
      | none => Except.error ()

/-- findScore, detect_picamera.py lines 146-152: return the score of the first
result; fall through to an implicit None on an empty list (the labels argument
is unused, as in the source). -/
def findScore (results : List DetectionRecord) (labels : List (Nat × String)) : Option Rat :=
  match results with
  | [] => none
  | result :: _ => some result.score

def digitChar (n : Nat) : Char := Char.ofNat (48 + n)

/-- Decimal digits of a natural number, most significant first, with fuel
bounding the recursion. -/
def natDigitsAux : Nat → Nat → List Nat
  | 0, _ => []
  | fuel + 1, n => if n < 10 then [n] else natDigitsAux fuel (n / 10) ++ [n % 10]

/-- The decimal digit characters of a natural number. -/
def natChars (n : Nat) : List Char := (natDigitsAux (n + 1) n).map digitChar

/-- Digits of the fractional part of a non-negative rational, most significant
first, stopping at a zero remainder or when the fuel runs out. -/
def fracDigitsAux : Nat → Rat → List Nat
  | 0, _ => []
  | fuel + 1, q =>
      if q = 0 then []
      else ⌊q * 10⌋.toNat :: fracDigitsAux fuel (q * 10 - (⌊q * 10⌋ : Rat))

/-- Python str applied to a float, modelled on rationals with a terminating
decimal expansion, as a character list: sign, integer part, a decimal point,
and the fractional digits ("0" when the value is integral, as Python prints
1.0 as "1.0"). -/
def pyStrChars (q : Rat) : List Char :=
  let a := |q|
  let ds := fracDigitsAux 17 (a - (⌊a⌋ : Rat))
  let fracCs := if ds.isEmpty then ['0'] else ds.map digitChar
  (if q < 0 then ['-'] else []) ++ natChars ⌊a⌋.toNat ++ '.' :: fracCs

/-- Python str applied to a float, as a string. -/
def pyStr (q : Rat) : String := String.mk (pyStrChars q)

/-- Python str applied to the optional score: the float's text, or "None". -/
def pyStrOfOptRat : Option Rat → String
  | none => "None"
  | some q => pyStr q

/-- Python str applied to the optional label: the string itself, or "None". -/
def pyStrOfOptStr : Option String → String
  | none => "None"
  | some s => s

/-- The published payload dictionary, detect_picamera.py lines 264-269 (field
names Sensor Name, Score, Coordinates, Class_ID in that order). -/
structure Post where
  sensorName : String
  score : String
  coordinates : Option (List Rat)
  classId : String
deriving DecidableEq

/-- Construction of the post dictionary from the three reduced values, with the
constant sensor name and the str conversions of the source. -/
def buildPost (point : Option (List Rat)) (label : Option String) (score : Option Rat) : Post :=
  { sensorName := "CameraPi"
    score := pyStrOfOptRat score
    coordinates := point
    classId := pyStrOfOptStr label }

/-- The telemetry preparation of one loop iteration, detect_picamera.py lines
241-269: filter detections, take the point from the raw boxes tensor re-read
after inference (line 242: the full tensor, not the filtered results), the
label and score from the filtered results, and build the post.  Errors of
findPoints and findLabels propagate in source order (point before label). -/
def prepareTelemetry (boxes : List Box) (classes : List Nat) (scores : List Rat)
    (count : Nat) (threshold : Rat) (labels : List (Nat × String)) : Except Unit Post :=
  let results := detect_objects boxes classes scores count threshold
  match findPoints boxes with
  | Except.error e => Except.error e
  | Except.ok point =>
      match findLabels results labels with
      | Except.error e => Except.error e
      | Except.ok label =>
          let score := findScore results labels
          Except.ok (buildPost point label score)

/-- Python truthiness of an optional string argument: None and the empty string
are falsy. -/
def pyTruthyStr : Option String → Bool
  | none => false
  | some s => !s.isEmpty

/-- Python truthiness of an optional int argument: None and 0 are falsy. -/
def pyTruthyInt : Option Int → Bool
  | none => false
  | some n => n != 0

/-- The command-line arguments consumed by the validation and connection setup
of main (detect_picamera.py lines 160-215); optional flags that argparse leaves
at None are Option-valued. -/
structure Args where
  useWebsocket : Bool
  certificatePath : Option String
  privateKeyPath : Option String
  port : Option Int
  mode : String
deriving DecidableEq

/-- detect_picamera.py line 157. -/
def AllowedActions : List String := ["publish"]

/-- The mode check of main, detect_picamera.py lines 199-201: parser.error
terminates the process with exit status 2 when the mode is not allowed. -/
def validateMode (mode : String) : Except Nat Unit :=
  if mode ∈ AllowedActions then Except.ok () else Except.error 2

/-- The two authentication checks of main, detect_picamera.py lines 203-209, in
source order: websocket mode with both a (truthy) certificate and key is
rejected, then non-websocket mode with either credential missing is rejected;
parser.error exits with status 2 in both cases. -/
def validateAuth (useWebsocket : Bool) (certificatePath privateKeyPath : Option String) :
    Except Nat Unit :=
  if useWebsocket && pyTruthyStr certificatePath && pyTruthyStr privateKeyPath then
    Except.error 2
  else if !useWebsocket && (!pyTruthyStr certificatePath || !pyTruthyStr privateKeyPath) then
    Except.error 2
  else Except.ok ()

/-- The configuration validation of main in source order: the mode check (line
199) followed by the authentication checks (lines 203-209). -/
def validateConfig (a : Args) : Except Nat Unit :=
  match validateMode a.mode with
  | Except.error e => Except.error e
  | Except.ok _ => validateAuth a.useWebsocket a.certificatePath a.privateKeyPath

/-- The port defaulting of main, detect_picamera.py lines 211-215: with
websocket and a falsy port (None or 0) the port becomes 443; without websocket
and a falsy port it becomes 8883; otherwise the supplied port is kept. -/
def effectivePort (useWebsocket : Bool) (port : Option Int) : Option Int :=
  let p := port
  let p := if useWebsocket && !pyTruthyInt port then some 443 else p
  let p := if !useWebsocket && !pyTruthyInt port then some 8883 else p
  p

/-- The prefix of main before any network or camera resource is touched:
validation (which terminates the process with status 2 on a configuration
error) followed by port resolution; only an ok result reaches the MQTT
connection of lines 219-227. -/
def mainSetup (a : Args) : Except Nat (Option Int) :=
  match validateConfig a with
  | Except.error e => Except.error e
  | Except.ok _ => Except.ok (effectivePort a.useWebsocket a.port)

def hexDigitChar (n : Nat) : Char :=
  if n < 10 then Char.ofNat (48 + n) else Char.ofNat (87 + n)

/-- Four lowercase hex digit characters of a value below 0x10000, as in the
backslash-u escapes of json.dumps. -/
def hex4 (n : Nat) : List Char :=
  [hexDigitChar (n / 4096 % 16), hexDigitChar (n / 256 % 16),
    hexDigitChar (n / 16 % 16), hexDigitChar (n % 16)]

/-- JSON string escaping of one character as json.dumps with its default
ensure_ascii performs it: quote and backslash escaped, the five short control
escapes, backslash-u escapes for the remaining control characters and for
every non-ASCII character (astral characters as a surrogate pair). -/
def jsonEscapeChar (c : Char) : List Char :=
  if c = '"' then ['\\', '"']
  else if c = '\\' then ['\\', '\\']
  else if c = '\x08' then ['\\', 'b']
  else if c = '\t' then ['\\', 't']
  else if c = '\n' then ['\\', 'n']
  else if c = '\x0c' then ['\\', 'f']
  else if c = '\r' then ['\\', 'r']
  else if c.toNat < 32 then '\\' :: 'u' :: hex4 c.toNat
  else if c.toNat < 127 then [c]
  else if c.toNat < 65536 then '\\' :: 'u' :: hex4 c.toNat
  else
    '\\' :: 'u' :: hex4 (55296 + (c.toNat - 65536) / 1024) ++
      '\\' :: 'u' :: hex4 (56320 + (c.toNat - 65536) % 1024)

/-- The escaped body of a JSON string. -/
def escapeChars : List Char → List Char
  | [] => []
  | c :: cs => jsonEscapeChar c ++ escapeChars cs

/-- A JSON string literal, quotes included. -/
def jsonStrChars (s : String) : List Char := '"' :: escapeChars s.toList ++ ['"']

/-- The numbers of a JSON array body with the default item separator of
json.dumps. -/
def numListChars : List Rat → List Char
  | [] => []
  | [q] => pyStrChars q
  | q :: qs => pyStrChars q ++ ',' :: ' ' :: numListChars qs

/-- The JSON rendering of the Coordinates value: null for None, otherwise the
bracketed list of floats. -/
def jsonCoordsChars : Option (List Rat) → List Char
  | none => ['n', 'u', 'l', 'l']
  | some l => '[' :: numListChars l ++ [']']

/-- json.dumps of the post dictionary, detect_picamera.py line 273, as a
character list: one line, insertion key order, default separators. -/
def serializePostChars (p : Post) : List Char :=
  '\x7b' :: jsonStrChars "Sensor Name" ++ ':' :: ' ' :: jsonStrChars p.sensorName ++
    ',' :: ' ' :: jsonStrChars "Score" ++ ':' :: ' ' :: jsonStrChars p.score ++
    ',' :: ' ' :: jsonStrChars "Coordinates" ++ ':' :: ' ' :: jsonCoordsChars p.coordinates ++
    ',' :: ' ' :: jsonStrChars "Class_ID" ++ ':' :: ' ' :: jsonStrChars p.classId ++ ['\x7d']

/-- json.dumps of the post dictionary, as the published string. -/
def serializePost (p : Post) : String := String.mk (serializePostChars p)

/-- Consume an expected literal character sequence, or fail. -/
def expectChars : List Char → List Char → Option (List Char)
  | [], cs => some cs
  | l :: ls, c :: cs => if c = l then expectChars ls cs else none
  | _ :: _, [] => none

/-- The single-character JSON string escapes. -/
def unescapeChar (c : Char) : Option Char :=
  if c = '"' then some '"'
  else if c = '\\' then some '\\'
  else if c = '/' then some '/'
  else if c = 'b' then some '\x08'
  else if c = 't' then some '\t'
  else if c = 'n' then some '\n'
  else if c = 'f' then some '\x0c'
  else if c = 'r' then some '\r'
  else none

/-- Value of one hex digit character, either case. -/
def hexDigitVal (c : Char) : Option Nat :=
  if 48 ≤ c.toNat ∧ c.toNat ≤ 57 then some (c.toNat - 48)
  else if 97 ≤ c.toNat ∧ c.toNat ≤ 102 then some (c.toNat - 87)
  else if 65 ≤ c.toNat ∧ c.toNat ≤ 70 then some (c.toNat - 55)
  else none

/-- One escape sequence after a backslash: a short escape or a backslash-u
escape (backslash-u escapes of unpaired surrogates are rejected rather than
joined). -/
def parseEscape (cs : List Char) : Option (Char × List Char) :=
  match cs with
  | 'u' :: a :: b :: e :: d :: rest2 =>
      match hexDigitVal a, hexDigitVal b, hexDigitVal e, hexDigitVal d with
      | some va, some vb, some ve, some vd =>
          let v := ((va * 16 + vb) * 16 + ve) * 16 + vd
          if v < 55296 ∨ 57344 ≤ v then some (Char.ofNat v, rest2) else none
      | _, _, _, _ => none
  | e :: rest2 =>
      match unescapeChar e with
      | some u => some (u, rest2)
      | none => none
  | [] => none

/-- Body of a JSON string after the opening quote: read until the closing
quote, undoing the escapes; fuel bounds the recursion. -/
def parseStrBody : Nat → List Char → Option (List Char × List Char)
  | 0, _ => none
  | _ + 1, [] => none
  | fuel + 1, c :: rest =>
      if c = '"' then some ([], rest)
      else if c = '\\' then
        match parseEscape rest with
        | some (u, rest2) =>
            match parseStrBody fuel rest2 with
            | some (l, r) => some (u :: l, r)
            | none => none
        | none => none
      else
        match parseStrBody fuel rest with
        | some (l, r) => some (c :: l, r)
        | none => none

/-- A JSON string literal, starting at its opening quote. -/
def parseJString (cs : List Char) : Option (String × List Char) :=
  match cs with
  | '"' :: rest =>
      match parseStrBody (rest.length + 1) rest with
      | some (l, r) => some (String.mk l, r)
      | none => none
  | _ => none

/-- An unsigned decimal number: integer digits, optionally a decimal point and
fractional digits. -/
def parseUnsigned (cs : List Char) : Option (Rat × List Char) :=
  let ip := cs.takeWhile Char.isDigit
  let after := cs.dropWhile Char.isDigit
  if ip.isEmpty then none
  else
    match after with
    | '.' :: cs2 =>
        let fp := cs2.takeWhile Char.isDigit
        if fp.isEmpty then none
        else
          some ((digitsToNat ip : Rat) + (digitsToNat fp : Rat) / ((10 : Rat) ^ fp.length),
            cs2.dropWhile Char.isDigit)
    | _ => some ((digitsToNat ip : Rat), after)

/-- A decimal number: optional minus sign, then an unsigned number. -/
def parseNum (cs : List Char) : Option (Rat × List Char) :=
  if cs.head? = some '-' then
    match parseUnsigned cs.tail with
    | some (q, r) => some (-q, r)
    | none => none
  else parseUnsigned cs

/-- A comma-separated list of numbers, with fuel bounding the recursion. -/
def parseNumList : Nat → List Char → Option (List Rat × List Char)
  | 0, _ => none
  | fuel + 1, cs =>
      match parseNum cs with
      | none => none
      | some (q, rest) =>
          match rest with
          | ',' :: ' ' :: rest2 =>
              match parseNumList fuel rest2 with
              | some (l, r) => some (q :: l, r)
              | none => none
          | _ => some ([q], rest)

/-- The Coordinates value: null or a bracketed number list. -/
def parseCoords (cs : List Char) : Option (Option (List Rat) × List Char) :=
  match cs with
  | 'n' :: 'u' :: 'l' :: 'l' :: rest => some (none, rest)
  | '[' :: rest =>
      match parseNumList (rest.length + 1) rest with
      | some (l, ']' :: r) => some (some l, r)
      | _ => none
  | _ => none

/-- A quoted key followed by the key separator of json.dumps. -/
def expectKey (name : String) (cs : List Char) : Option (List Char) :=
  match parseJString cs with
  | some (s, r) =>
      match r with
      | ':' :: ' ' :: r2 => if s = name then some r2 else none
      | _ => none
  | none => none

/-- json.loads restricted to the fixed shape serializePost emits: the receiving
decoder of the wire message. -/
def parsePost (s : String) : Option Post := do
  let cs ← expectChars ['\x7b'] s.toList
  let cs ← expectKey "Sensor Name" cs
  let (sn, cs) ← parseJString cs
  let cs ← expectChars [',', ' '] cs
  let cs ← expectKey "Score" cs
  let (sc, cs) ← parseJString cs
  let cs ← expectChars [',', ' '] cs
  let cs ← expectKey "Coordinates" cs
  let (co, cs) ← parseCoords cs
  let cs ← expectChars [',', ' '] cs
  let cs ← expectKey "Class_ID" cs
  let (ci, cs) ← parseJString cs
  let cs ← expectChars ['\x7d'] cs
  match cs with
  | [] => some { sensorName := sn, score := sc, coordinates := co, classId := ci }
  | _ => none

/-- The characters whose escape-and-reparse round trip is proven below: the
printable ASCII range plus the five control characters with short JSON
escapes.  Every label and every str-rendered float of the program is covered. -/
def jsonPlainChar (c : Char) : Bool :=
  (32 ≤ c.toNat && c.toNat < 127) || c = '\t' || c = '\n' || c = '\r' || c = '\x08' || c = '\x0c'
/-! Helper lemmas, shared across the claim theorems. -/

/-- Value of a digit list, most significant first. -/
def digitsVal (ds : List Nat) : Nat := ds.foldl (fun a d => a * 10 + d) 0

theorem digitsVal_from (ds : List Nat) :
    ∀ a : Nat, ds.foldl (fun x d => x * 10 + d) a = a * 10 ^ ds.length + digitsVal ds := by
  induction ds with
  | nil => intro a; simp [digitsVal]
  | cons d ds ih =>
      intro a
      show ds.foldl (fun x d => x * 10 + d) (a * 10 + d) = _
      rw [ih (a * 10 + d)]
      have hd : digitsVal (d :: ds) = d * 10 ^ ds.length + digitsVal ds := by
        show ds.foldl (fun x d => x * 10 + d) (0 * 10 + d) = _
        rw [ih (0 * 10 + d)]
        ring
      rw [hd]
      simp [List.length_cons]
      ring

theorem digitsVal_cons (d : Nat) (ds : List Nat) :
    digitsVal (d :: ds) = d * 10 ^ ds.length + digitsVal ds := by
  show ds.foldl (fun x d => x * 10 + d) (0 * 10 + d) = _
  rw [digitsVal_from ds (0 * 10 + d)]
  ring

theorem digitsVal_concat (ds : List Nat) (d : Nat) :
    digitsVal (ds ++ [d]) = digitsVal ds * 10 + d := by
  unfold digitsVal
  rw [List.foldl_append]
  rfl

theorem digitChar_toNat (d : Nat) (hd : d < 10) : (digitChar d).toNat = 48 + d := by
  interval_cases d <;> decide

theorem digitChar_isDigit (d : Nat) (hd : d < 10) : (digitChar d).isDigit = true := by
  interval_cases d <;> decide

theorem digitChar_plain (d : Nat) (hd : d < 10) : jsonPlainChar (digitChar d) = true := by
  interval_cases d <;> decide

theorem digitsToNatFrom_map (ds : List Nat) (h : ∀ d ∈ ds, d < 10) :
    ∀ a : Nat, (ds.map digitChar).foldl (fun x c => x * 10 + (c.toNat - 48)) a =
      ds.foldl (fun x d => x * 10 + d) a := by
  induction ds with
  | nil => intro a; rfl
  | cons d ds ih =>
      intro a
      have hd : d < 10 := h d (by simp)
      simp only [List.map_cons, List.foldl_cons, digitChar_toNat d hd]
      have h2 : a * 10 + (48 + d - 48) = a * 10 + d := by omega
      rw [h2]
      exact ih (fun x hx => h x (by simp [hx])) (a * 10 + d)

theorem digitsToNat_map_digitChar (ds : List Nat) (h : ∀ d ∈ ds, d < 10) :
    digitsToNat (ds.map digitChar) = digitsVal ds :=
  digitsToNatFrom_map ds h 0

theorem natDigitsAux_val : ∀ (fuel n : Nat), n < 10 ^ fuel →
    digitsVal (natDigitsAux fuel n) = n
  | 0, n, h => by
      have : n = 0 := by simpa using h
      subst this
      rfl
  | fuel + 1, n, h => by
      by_cases h10 : n < 10
      · simp [natDigitsAux, h10, digitsVal]
      · have hrec : n / 10 < 10 ^ fuel := by
          have h1 : n < 10 * 10 ^ fuel := by
            rw [mul_comm, ← pow_succ]; exact h
          exact Nat.div_lt_of_lt_mul h1
        simp only [natDigitsAux, h10, if_false]
        rw [digitsVal_concat, natDigitsAux_val fuel (n / 10) hrec]
        omega

theorem natDigitsAux_lt : ∀ (fuel n : Nat), ∀ d ∈ natDigitsAux fuel n, d < 10
  | 0, _, d, hd => by simp [natDigitsAux] at hd
  | fuel + 1, n, d, hd => by
      by_cases h10 : n < 10
      · simp [natDigitsAux, h10] at hd
        omega
      · simp only [natDigitsAux, h10, if_false, List.mem_append, List.mem_singleton] at hd
        rcases hd with hd | hd
        · exact natDigitsAux_lt fuel (n / 10) d hd
        · omega

theorem natDigitsAux_ne_nil (fuel n : Nat) : natDigitsAux (fuel + 1) n ≠ [] := by
  by_cases h10 : n < 10 <;> simp [natDigitsAux, h10]

theorem natChars_val (n : Nat) : digitsToNat (natChars n) = n := by
  unfold natChars
  rw [digitsToNat_map_digitChar _ (natDigitsAux_lt (n + 1) n)]
  exact natDigitsAux_val (n + 1) n
    (lt_of_lt_of_le (Nat.lt_pow_self (by norm_num) n)
      (Nat.pow_le_pow_right (by norm_num) (by omega)))

theorem natChars_digits (n : Nat) : ∀ c ∈ natChars n, c.isDigit = true := by
  intro c hc
  simp only [natChars, List.mem_map] at hc
  obtain ⟨d, hd, rfl⟩ := hc
  exact digitChar_isDigit d (natDigitsAux_lt (n + 1) n d hd)

theorem natChars_ne_nil (n : Nat) : natChars n ≠ [] := by
  unfold natChars
  simpa using natDigitsAux_ne_nil n n

theorem fracDigitsAux_lt : ∀ (fuel : Nat) (q : Rat), 0 ≤ q → q < 1 →
    ∀ d ∈ fracDigitsAux fuel q, d < 10
  | 0, q, _, _, d, hd => by simp [fracDigitsAux] at hd
  | fuel + 1, q, h0, h1, d, hd => by
      by_cases hq : q = 0
      · simp [fracDigitsAux, hq] at hd
      · simp only [fracDigitsAux, hq, if_false, List.mem_cons] at hd
        rcases hd with hd | hd
        · subst hd
          have hub : q * 10 < 10 := by nlinarith
          have hlb : (0 : Rat) ≤ q * 10 := by nlinarith
          have hfl : ⌊q * 10⌋ < (10 : Int) := Int.floor_lt.mpr (by exact_mod_cast hub)
          have hfl0 : (0 : Int) ≤ ⌊q * 10⌋ := Int.floor_nonneg.mpr hlb
          omega
        · refine fracDigitsAux_lt fuel _ ?_ ?_ d hd
          · rw [Int.self_sub_floor]; exact Int.fract_nonneg _
          · rw [Int.self_sub_floor]; exact Int.fract_lt_one _

theorem fracDigitsAux_val : ∀ (fuel : Nat) (q : Rat), 0 ≤ q → q < 1 →
    (∃ z : Int, q * 10 ^ fuel = (z : Rat)) →
    (digitsVal (fracDigitsAux fuel q) : Rat) = q * 10 ^ (fracDigitsAux fuel q).length
  | 0, q, h0, h1, hex => by
      obtain ⟨z, hz⟩ := hex
      rw [pow_zero, mul_one] at hz
      have h0z : (0 : Rat) ≤ (z : Rat) := hz ▸ h0
      have h1z : ((z : Rat)) < 1 := hz ▸ h1
      have hz0 : z = 0 := by
        have a1 : (0 : Int) ≤ z := by exact_mod_cast h0z
        have a2 : z < 1 := by exact_mod_cast h1z
        omega
      rw [hz0] at hz
      norm_num at hz
      simp [fracDigitsAux, digitsVal, hz]
  | fuel + 1, q, h0, h1, hex => by
      by_cases hq : q = 0
      · simp [fracDigitsAux, hq, digitsVal]
      · obtain ⟨z, hz⟩ := hex
        have hfl0 : (0 : Int) ≤ ⌊q * 10⌋ := Int.floor_nonneg.mpr (by nlinarith)
        set f := q * 10 - (⌊q * 10⌋ : Rat) with hf
        have hf0 : 0 ≤ f := by rw [hf, Int.self_sub_floor]; exact Int.fract_nonneg _
        have hf1 : f < 1 := by rw [hf, Int.self_sub_floor]; exact Int.fract_lt_one _
        have hfterm : ∃ w : Int, f * 10 ^ fuel = (w : Rat) := by
          refine ⟨z - ⌊q * 10⌋ * 10 ^ fuel, ?_⟩
          have hstep : f * 10 ^ fuel = q * 10 ^ (fuel + 1) - (⌊q * 10⌋ : Rat) * 10 ^ fuel := by
            rw [hf]; ring
          rw [hstep, hz]
          push_cast
          ring
        have ih := fracDigitsAux_val fuel f hf0 hf1 hfterm
        simp only [fracDigitsAux, hq, if_false]
        rw [digitsVal_cons]
        push_cast [Int.toNat_of_nonneg hfl0]
        rw [ih]
        simp only [List.length_cons]
        rw [hf]
        have hcast : ((⌊q * 10⌋.toNat : Nat) : Rat) = ((⌊q * 10⌋ : Int) : Rat) := by
          exact_mod_cast Int.toNat_of_nonneg hfl0
        rw [hcast]
        ring

theorem fracDigitsAux_nil (fuel : Nat) (q : Rat) (h : fracDigitsAux (fuel + 1) q = []) :
    q = 0 := by
  by_cases hq : q = 0
  · exact hq
  · simp [fracDigitsAux, hq] at h

theorem takeWhile_append_all (p : Char → Bool) :
    ∀ (xs ys : List Char), (∀ x ∈ xs, p x = true) → (∀ c ∈ ys.take 1, p c = false) →
      (xs ++ ys).takeWhile p = xs ∧ (xs ++ ys).dropWhile p = ys
  | [], ys, _, hy => by
      cases ys with
      | nil => simp
      | cons y t =>
          have hpy : p y = false := hy y (by simp)
          simp [List.takeWhile_cons, List.dropWhile_cons, hpy]
  | x :: xs, ys, hx, hy => by
      have hpx : p x = true := hx x (by simp)
      have ih := takeWhile_append_all p xs ys (fun c hc => hx c (by simp [hc])) hy
      simp [List.takeWhile_cons, List.dropWhile_cons, hpx, ih.1, ih.2]

theorem pyStrChars_nonneg (q : Rat) (h0 : 0 ≤ q) :
    pyStrChars q = natChars ⌊q⌋.toNat ++ '.' ::
      (if (fracDigitsAux 17 (q - (⌊q⌋ : Rat))).isEmpty then ['0']
        else (fracDigitsAux 17 (q - (⌊q⌋ : Rat))).map digitChar) := by
  simp [pyStrChars, abs_of_nonneg h0, not_lt.mpr h0]

theorem pyStrChars_neg (q : Rat) (hq : q < 0) : pyStrChars q = '-' :: pyStrChars (-q) := by
  have h1 : |q| = -q := abs_of_neg hq
  have h2 : ¬ (-q) < 0 := by linarith
  have h3 : |(-q)| = -q := abs_of_pos (by linarith)
  simp [pyStrChars, hq, h1, h2, h3]

theorem parseUnsigned_pyStrChars (q : Rat) (h0 : 0 ≤ q)
    (h17 : ∃ z : Int, q * 10 ^ 17 = (z : Rat)) (r : List Char)
    (hr : ∀ c ∈ r.take 1, c.isDigit = false) :
    parseUnsigned (pyStrChars q ++ r) = some (q, r) := by
  have hfr0 : (0 : Rat) ≤ q - (⌊q⌋ : Rat) := by
    rw [Int.self_sub_floor]; exact Int.fract_nonneg _
  have hfr1 : q - (⌊q⌋ : Rat) < 1 := by
    rw [Int.self_sub_floor]; exact Int.fract_lt_one _
  set F := fracDigitsAux 17 (q - (⌊q⌋ : Rat)) with hF
  set fracCs : List Char := if F.isEmpty then ['0'] else F.map digitChar with hfracCs
  have hFlt : ∀ d ∈ F, d < 10 := fracDigitsAux_lt 17 _ hfr0 hfr1
  have hfracDigits : ∀ c ∈ fracCs, c.isDigit = true := by
    rw [hfracCs]
    by_cases he : F.isEmpty
    · simp [he]
    · intro c hc
      rw [if_neg he] at hc
      obtain ⟨d, hd, rfl⟩ := List.mem_map.mp hc
      exact digitChar_isDigit d (hFlt d hd)
  have hfracNe : fracCs ≠ [] := by
    rw [hfracCs]
    by_cases he : F.isEmpty
    · simp [he]
    · have : F ≠ [] := by simpa [List.isEmpty_iff] using he
      simp [he, this]
  rw [pyStrChars_nonneg q h0, ← hF, ← hfracCs]
  rw [List.append_assoc, List.cons_append]
  have hsplit1 := takeWhile_append_all Char.isDigit (natChars ⌊q⌋.toNat) ('.' :: (fracCs ++ r))
    (natChars_digits _) (by intro c hc; simp at hc; subst hc; decide)
  have hsplit2 := takeWhile_append_all Char.isDigit fracCs r hfracDigits hr
  have hipne : (natChars ⌊q⌋.toNat).isEmpty = false := by
    cases hnc : natChars ⌊q⌋.toNat with
    | nil => exact absurd hnc (natChars_ne_nil _)
    | cons a t => rfl
  have hfpne : fracCs.isEmpty = false := by
    cases hfc : fracCs with
    | nil => exact absurd hfc hfracNe
    | cons a t => rfl
  simp only [parseUnsigned, hsplit1.1, hsplit1.2, hipne, Bool.false_eq_true, if_false,
    hsplit2.1, hsplit2.2, hfpne]
  congr 1
  congr 1
  have hfloor0 : (0 : Int) ≤ ⌊q⌋ := Int.floor_nonneg.mpr h0
  have hip : ((digitsToNat (natChars ⌊q⌋.toNat) : Nat) : Rat) = ((⌊q⌋ : Int) : Rat) := by
    rw [natChars_val]
    exact_mod_cast Int.toNat_of_nonneg hfloor0
  by_cases he : F.isEmpty
  · have hF0 : q - (⌊q⌋ : Rat) = 0 := by
      apply fracDigitsAux_nil 16
      rw [← hF]
      simpa [List.isEmpty_iff] using he
    have hfc0 : fracCs = ['0'] := by rw [hfracCs, if_pos he]
    have h00 : digitsToNat ['0'] = 0 := by decide
    rw [hfc0, hip, h00]
    norm_num
    linarith [hF0]
  · have hFne : F ≠ [] := by simpa [List.isEmpty_iff] using he
    have hfc : fracCs = F.map digitChar := by rw [hfracCs, if_neg he]
    have hterm : ∃ w : Int, (q - (⌊q⌋ : Rat)) * 10 ^ 17 = (w : Rat) := by
      obtain ⟨z, hz⟩ := h17
      refine ⟨z - ⌊q⌋ * 10 ^ 17, ?_⟩
      push_cast
      rw [← hz]
      ring
    have hval := fracDigitsAux_val 17 (q - (⌊q⌋ : Rat)) hfr0 hfr1 hterm
    rw [hfc, digitsToNat_map_digitChar F hFlt, List.length_map]
    rw [← hF] at hval
    rw [hval, hip]
    have hpow : ((10 : Rat) ^ F.length) ≠ 0 := by positivity
    field_simp

theorem parseNum_pyStrChars (q : Rat) (h17 : ∃ z : Int, q * 10 ^ 17 = (z : Rat))
    (r : List Char) (hr : ∀ c ∈ r.take 1, c.isDigit = false) :
    parseNum (pyStrChars q ++ r) = some (q, r) := by
  by_cases hq : q < 0
  · rw [pyStrChars_neg q hq]
    have hpos : parseUnsigned (pyStrChars (-q) ++ r) = some (-q, r) := by
      refine parseUnsigned_pyStrChars (-q) (by linarith) ?_ r hr
      obtain ⟨z, hz⟩ := h17
      exact ⟨-z, by push_cast; linarith [hz]⟩
    simp [parseNum, List.cons_append, hpos]
  · have h0 : 0 ≤ q := not_lt.mp hq
    have hU := parseUnsigned_pyStrChars q h0 h17 r hr
    obtain ⟨c, t, hnc⟩ := List.exists_cons_of_ne_nil (natChars_ne_nil ⌊q⌋.toNat)
    have hcd : c.isDigit = true := natChars_digits _ c (by rw [hnc]; simp)
    have hcne : c ≠ '-' := by
      intro h
      rw [h] at hcd
      exact absurd hcd (by decide)
    have hhead : (pyStrChars q ++ r).head? = some c := by
      rw [pyStrChars_nonneg q h0, hnc]
      rfl
    rw [parseNum, hhead]
    simp [hcne, hU]

theorem pyStrChars_ne_nil (q : Rat) : pyStrChars q ≠ [] := by
  simp [pyStrChars]

theorem jsonEscapeChar_ne_nil (c : Char) : jsonEscapeChar c ≠ [] := by
  unfold jsonEscapeChar
  repeat' split
  all_goals simp

theorem escapeChars_length : ∀ cs : List Char, cs.length ≤ (escapeChars cs).length
  | [] => le_refl _
  | c :: cs => by
      have h1 : 1 ≤ (jsonEscapeChar c).length := by
        cases hj : jsonEscapeChar c with
        | nil => exact absurd hj (jsonEscapeChar_ne_nil c)
        | cons a t => simp
      have ih := escapeChars_length cs
      simp only [escapeChars, List.length_cons, List.length_append]
      omega

theorem parseStrBody_escapeChars :
    ∀ (cs : List Char) (fuel : Nat), cs.length < fuel →
      (∀ c ∈ cs, jsonPlainChar c = true) → ∀ rest : List Char,
      parseStrBody fuel (escapeChars cs ++ '"' :: rest) = some (cs, rest)
  | [], fuel, hf, _, rest => by
      obtain ⟨f, rfl⟩ : ∃ f, fuel = f + 1 := ⟨fuel - 1, by omega⟩
      rfl
  | c :: cs, fuel, hf, h, rest => by
      obtain ⟨f, rfl⟩ : ∃ f, fuel = f + 1 := ⟨fuel - 1, by omega⟩
      have hc : jsonPlainChar c = true := h c (by simp)
      have hflen : cs.length < f := by simp only [List.length_cons] at hf; omega
      have ih := parseStrBody_escapeChars cs f hflen (fun x hx => h x (by simp [hx])) rest
      by_cases h1 : c = '"'
      · subst h1
        have hesc : parseEscape ('"' :: (escapeChars cs ++ '"' :: rest)) =
            some ('"', escapeChars cs ++ '"' :: rest) := rfl
        simp [escapeChars, jsonEscapeChar, parseStrBody, hesc, List.append_assoc, ih]
      · by_cases h2 : c = '\\'
        · subst h2
          have hesc : parseEscape ('\\' :: (escapeChars cs ++ '"' :: rest)) =
              some ('\\', escapeChars cs ++ '"' :: rest) := rfl
          simp [escapeChars, jsonEscapeChar, parseStrBody, hesc, List.append_assoc, ih]
        · by_cases h3 : c = '\x08'
          · subst h3
            have hesc : parseEscape ('b' :: (escapeChars cs ++ '"' :: rest)) =
                some ('\x08', escapeChars cs ++ '"' :: rest) := rfl
            simp [escapeChars, jsonEscapeChar, parseStrBody, hesc, List.append_assoc, ih]
          · by_cases h4 : c = '\t'
            · subst h4
              have hesc : parseEscape ('t' :: (escapeChars cs ++ '"' :: rest)) =
                  some ('\t', escapeChars cs ++ '"' :: rest) := rfl
              simp [escapeChars, jsonEscapeChar, parseStrBody, hesc, List.append_assoc, ih]
            · by_cases h5 : c = '\n'
              · subst h5
                have hesc : parseEscape ('n' :: (escapeChars cs ++ '"' :: rest)) =
                    some ('\n', escapeChars cs ++ '"' :: rest) := rfl
                simp [escapeChars, jsonEscapeChar, parseStrBody, hesc, List.append_assoc, ih]
              · by_cases h6 : c = '\x0c'
                · subst h6
                  have hesc : parseEscape ('f' :: (escapeChars cs ++ '"' :: rest)) =
                      some ('\x0c', escapeChars cs ++ '"' :: rest) := rfl
                  simp [escapeChars, jsonEscapeChar, parseStrBody, hesc,
                    List.append_assoc, ih]
                · by_cases h7 : c = '\r'
                  · subst h7
                    have hesc : parseEscape ('r' :: (escapeChars cs ++ '"' :: rest)) =
                        some ('\r', escapeChars cs ++ '"' :: rest) := rfl
                    simp [escapeChars, jsonEscapeChar, parseStrBody, hesc,
                      List.append_assoc, ih]
                  · have hval : 32 ≤ c.toNat ∧ c.toNat < 127 := by
                      simp [jsonPlainChar, h3, h4, h5, h6, h7] at hc
                      exact hc
                    have hlt : ¬ c.toNat < 32 := by omega
                    simp [escapeChars, jsonEscapeChar, h1, h2, h3, h4, h5, h6, h7, hlt,
                      hval.2, parseStrBody, List.append_assoc, ih]

theorem parseJString_jsonStrChars (s : String)
    (hs : ∀ c ∈ s.toList, jsonPlainChar c = true) (rest : List Char) :
    parseJString (jsonStrChars s ++ rest) = some (s, rest) := by
  have hshape : jsonStrChars s ++ rest = '"' :: (escapeChars s.toList ++ '"' :: rest) := by
    simp [jsonStrChars]
  rw [hshape]
  have hflen : s.toList.length < (escapeChars s.toList ++ '"' :: rest).length + 1 := by
    have := escapeChars_length s.toList
    simp only [List.length_append, List.length_cons]
    omega
  simp only [parseJString, parseStrBody_escapeChars s.toList _ hflen hs rest]
  rfl

theorem expectChars_append : ∀ (lit rest : List Char), expectChars lit (lit ++ rest) = some rest
  | [], rest => rfl
  | l :: ls, rest => by simp [expectChars, expectChars_append ls rest]

theorem expectKey_jsonStrChars (name : String)
    (hn : ∀ c ∈ name.toList, jsonPlainChar c = true) (rest : List Char) :
    expectKey name (jsonStrChars name ++ ':' :: ' ' :: rest) = some rest := by
  simp [expectKey, parseJString_jsonStrChars name hn (':' :: ' ' :: rest)]

theorem parseNumList_two (x y : Rat)
    (hx : ∃ z : Int, x * 10 ^ 17 = (z : Rat)) (hy : ∃ z : Int, y * 10 ^ 17 = (z : Rat))
    (fuel : Nat) (r : List Char) :
    parseNumList (fuel + 2) (pyStrChars x ++ ',' :: ' ' :: (pyStrChars y ++ ']' :: r)) =
      some ([x, y], ']' :: r) := by
  have h1 := parseNum_pyStrChars x hx (',' :: ' ' :: (pyStrChars y ++ ']' :: r))
    (by intro c hc; simp at hc; subst hc; decide)
  have h2 := parseNum_pyStrChars y hy (']' :: r)
    (by intro c hc; simp at hc; subst hc; decide)
  show parseNumList (fuel + 1 + 1) _ = _
  simp only [parseNumList, h1, h2]
  rfl

theorem parseCoords_pair (x y : Rat)
    (hx : ∃ z : Int, x * 10 ^ 17 = (z : Rat)) (hy : ∃ z : Int, y * 10 ^ 17 = (z : Rat))
    (r : List Char) :
    parseCoords (jsonCoordsChars (some [x, y]) ++ r) = some (some [x, y], r) := by
  have hshape : jsonCoordsChars (some [x, y]) ++ r =
      '[' :: (pyStrChars x ++ ',' :: ' ' :: (pyStrChars y ++ ']' :: r)) := by
    simp [jsonCoordsChars, numListChars, List.append_assoc]
  rw [hshape]
  have hlen : 1 ≤ (pyStrChars x ++ ',' :: ' ' :: (pyStrChars y ++ ']' :: r)).length := by
    cases hpx : pyStrChars x with
    | nil => exact absurd hpx (pyStrChars_ne_nil x)
    | cons a t => simp [hpx]
  have hfuel : (pyStrChars x ++ ',' :: ' ' :: (pyStrChars y ++ ']' :: r)).length + 1 =
      ((pyStrChars x ++ ',' :: ' ' :: (pyStrChars y ++ ']' :: r)).length - 1) + 2 := by
    omega
  simp only [parseCoords, hfuel, parseNumList_two x y hx hy]



theorem notMemAppend {a : Char} {l1 l2 : List Char} (h1 : a ∉ l1) (h2 : a ∉ l2) :
    a ∉ l1 ++ l2 := fun h => (List.mem_append.mp h).elim h1 h2

theorem notMemCons {a b : Char} {l : List Char} (h1 : a ≠ b) (h2 : a ∉ l) : a ∉ b :: l := by
  intro h
  rcases List.mem_cons.mp h with h | h
  · exact h1 h
  · exact h2 h

theorem hexDigitChar_ne_newline (m : Nat) (hm : m < 16) : hexDigitChar m ≠ '\n' := by
  interval_cases m <;> decide

theorem digitChar_ne_newline (d : Nat) (hd : d < 10) : digitChar d ≠ '\n' := by
  interval_cases d <;> decide

theorem hex4_no_newline (k : Nat) : '\n' ∉ hex4 k := by
  intro hmem
  simp only [hex4, List.mem_cons, List.not_mem_nil, or_false] at hmem
  rcases hmem with h | h | h | h <;>
    exact hexDigitChar_ne_newline _ (Nat.mod_lt _ (by norm_num)) h.symm

theorem jsonEscapeChar_no_newline (c : Char) : '\n' ∉ jsonEscapeChar c := by
  by_cases h1 : c = '"'
  · simp [jsonEscapeChar, h1]
  · by_cases h2 : c = '\\'
    · simp [jsonEscapeChar, h1, h2]
    · by_cases h3 : c = '\x08'
      · simp [jsonEscapeChar, h1, h2, h3]
      · by_cases h4 : c = '\t'
        · simp [jsonEscapeChar, h1, h2, h3, h4]
        · by_cases h5 : c = '\n'
          · simp [jsonEscapeChar, h1, h2, h3, h4, h5]
          · by_cases h6 : c = '\x0c'
            · simp [jsonEscapeChar, h1, h2, h3, h4, h5, h6]
            · by_cases h7 : c = '\r'
              · simp [jsonEscapeChar, h1, h2, h3, h4, h5, h6, h7]
              · by_cases h8 : c.toNat < 32
                · simp [jsonEscapeChar, h1, h2, h3, h4, h5, h6, h7, h8, hex4_no_newline]
                · by_cases h9 : c.toNat < 127
                  · simp only [jsonEscapeChar, h1, h2, h3, h4, h5, h6, h7, h8, h9,
                      if_false, if_true, List.mem_singleton]
                    exact fun heq => h5 heq.symm
                  · by_cases h10 : c.toNat < 65536
                    · simp [jsonEscapeChar, h1, h2, h3, h4, h5, h6, h7, h8, h9, h10,
                        hex4_no_newline]
                    · simp [jsonEscapeChar, h1, h2, h3, h4, h5, h6, h7, h8, h9, h10,
                        hex4_no_newline]

theorem escapeChars_no_newline : ∀ cs : List Char, '\n' ∉ escapeChars cs
  | [] => by simp [escapeChars]
  | c :: cs => by
      intro h
      rcases List.mem_append.mp (by simpa [escapeChars] using h) with h | h
      · exact jsonEscapeChar_no_newline c h
      · exact escapeChars_no_newline cs h

theorem jsonStrChars_no_newline (s : String) : '\n' ∉ jsonStrChars s := by
  unfold jsonStrChars
  exact notMemAppend (notMemCons (by decide) (escapeChars_no_newline s.toList)) (by decide)

theorem pyStrChars_plain (q : Rat) : ∀ c ∈ pyStrChars q, jsonPlainChar c = true := by
  intro c hc
  have hfr0 : (0 : Rat) ≤ |q| - (⌊|q|⌋ : Rat) := by
    rw [Int.self_sub_floor]; exact Int.fract_nonneg _
  have hfr1 : |q| - (⌊|q|⌋ : Rat) < 1 := by
    rw [Int.self_sub_floor]; exact Int.fract_lt_one _
  simp only [pyStrChars, List.mem_append, List.mem_cons] at hc
  rcases hc with (hc | hc) | hc | hc
  · by_cases hq : q < 0
    · simp [hq] at hc
      subst hc; decide
    · simp [hq] at hc
  · simp only [natChars, List.mem_map] at hc
    obtain ⟨d, hd, rfl⟩ := hc
    exact digitChar_plain d (natDigitsAux_lt _ _ d hd)
  · subst hc; decide
  · by_cases he : (fracDigitsAux 17 (|q| - (⌊|q|⌋ : Rat))).isEmpty
    · rw [if_pos he] at hc
      simp only [List.mem_singleton] at hc
      subst hc; decide
    · rw [if_neg he] at hc
      obtain ⟨d, hd, rfl⟩ := List.mem_map.mp hc
      exact digitChar_plain d (fracDigitsAux_lt 17 _ hfr0 hfr1 d hd)

theorem pyStrChars_no_newline (q : Rat) : '\n' ∉ pyStrChars q := by
  intro hc
  have hfr0 : (0 : Rat) ≤ |q| - (⌊|q|⌋ : Rat) := by
    rw [Int.self_sub_floor]; exact Int.fract_nonneg _
  have hfr1 : |q| - (⌊|q|⌋ : Rat) < 1 := by
    rw [Int.self_sub_floor]; exact Int.fract_lt_one _
  simp only [pyStrChars, List.mem_append, List.mem_cons] at hc
  rcases hc with (hc | hc) | hc | hc
  · by_cases hq : q < 0
    · simp [hq] at hc
    · simp [hq] at hc
  · simp only [natChars, List.mem_map] at hc
    obtain ⟨d, hd, hdc⟩ := hc
    exact digitChar_ne_newline d (natDigitsAux_lt _ _ d hd) hdc
  · exact absurd hc (by decide)
  · by_cases he : (fracDigitsAux 17 (|q| - (⌊|q|⌋ : Rat))).isEmpty
    · rw [if_pos he] at hc
      simp only [List.mem_singleton] at hc
      exact absurd hc (by decide)
    · rw [if_neg he] at hc
      obtain ⟨d, hd, hdc⟩ := List.mem_map.mp hc
      exact digitChar_ne_newline d (fracDigitsAux_lt 17 _ hfr0 hfr1 d hd) hdc

theorem numListChars_no_newline : ∀ l : List Rat, '\n' ∉ numListChars l
  | [] => by simp [numListChars]
  | [q] => by simpa [numListChars] using pyStrChars_no_newline q
  | q :: q2 :: qs => by
      show '\n' ∉ pyStrChars q ++ ',' :: ' ' :: numListChars (q2 :: qs)
      exact notMemAppend (pyStrChars_no_newline q)
        (notMemCons (by decide) (notMemCons (by decide) (numListChars_no_newline (q2 :: qs))))

theorem jsonCoordsChars_no_newline (co : Option (List Rat)) : '\n' ∉ jsonCoordsChars co := by
  cases co with
  | none => simp [jsonCoordsChars]
  | some l =>
      show '\n' ∉ '[' :: numListChars l ++ [']']
      exact notMemAppend (notMemCons (by decide) (numListChars_no_newline l)) (by decide)

theorem serializePost_one_line (p : Post) : '\n' ∉ (serializePost p).toList := by
  show '\n' ∉ serializePostChars p
  simp only [serializePostChars, List.append_assoc, List.cons_append]
  refine notMemCons (by decide) ?_
  refine notMemAppend (jsonStrChars_no_newline _) ?_
  refine notMemCons (by decide) ?_
  refine notMemCons (by decide) ?_
  refine notMemAppend (jsonStrChars_no_newline _) ?_
  refine notMemCons (by decide) ?_
  refine notMemCons (by decide) ?_
  refine notMemAppend (jsonStrChars_no_newline _) ?_
  refine notMemCons (by decide) ?_
  refine notMemCons (by decide) ?_
  refine notMemAppend (jsonStrChars_no_newline _) ?_
  refine notMemCons (by decide) ?_
  refine notMemCons (by decide) ?_
  refine notMemAppend (jsonStrChars_no_newline _) ?_
  refine notMemCons (by decide) ?_
  refine notMemCons (by decide) ?_
  refine notMemAppend (jsonCoordsChars_no_newline _) ?_
  refine notMemCons (by decide) ?_
  refine notMemCons (by decide) ?_
  refine notMemAppend (jsonStrChars_no_newline _) ?_
  refine notMemCons (by decide) ?_
  refine notMemCons (by decide) ?_
  refine notMemAppend (jsonStrChars_no_newline _) ?_
  decide

theorem someBind {A B : Type} (a : A) (f : A → Option B) : (some a >>= f) = f a := rfl

theorem parsePost_serializePost (p : Post) (x y : Rat)
    (hsn : ∀ c ∈ p.sensorName.toList, jsonPlainChar c = true)
    (hsc : ∀ c ∈ p.score.toList, jsonPlainChar c = true)
    (hci : ∀ c ∈ p.classId.toList, jsonPlainChar c = true)
    (hco : p.coordinates = some [x, y])
    (hx : ∃ z : Int, x * 10 ^ 17 = (z : Rat))
    (hy : ∃ z : Int, y * 10 ^ 17 = (z : Rat)) :
    parsePost (serializePost p) = some p := by
  have htl : (serializePost p).toList = serializePostChars p := rfl
  simp only [parsePost, htl, serializePostChars, hco, List.append_eq, List.append_assoc,
    List.cons_append, expectChars, if_pos, someBind,
    expectKey_jsonStrChars "Sensor Name" (by decide),
    expectKey_jsonStrChars "Score" (by decide),
    expectKey_jsonStrChars "Coordinates" (by decide),
    expectKey_jsonStrChars "Class_ID" (by decide),
    parseJString_jsonStrChars p.sensorName hsn,
    parseJString_jsonStrChars p.score hsc,
    parseJString_jsonStrChars p.classId hci,
    parseCoords_pair x y hx hy]
  rw [← hco]

theorem filterMap_guard {α β : Type} (g : α → β) (p : β → Prop) [DecidablePred p]
    (l : List α) :
    (l.filterMap fun a => if p (g a) then some (g a) else none) =
      (l.map g).filter (fun b => decide (p b)) := by
  induction l with
  | nil => rfl
  | cons a l ih =>
      by_cases h : p (g a) <;>
        simp [List.filterMap_cons, List.filter_cons, h, ih]

theorem detect_objects_eq_filter (b : List Box) (c : List Nat) (s : List Rat)
    (n : Nat) (t : Rat) :
    detect_objects b c s n t =
      (truncatedRecords b c s n).filter (fun r => decide (t ≤ r.score)) := by
  unfold detect_objects truncatedRecords
  exact filterMap_guard (recordAt b c s) (fun r => t ≤ r.score) (List.range n)

theorem loadLabelsAux_append (x : String) :
    ∀ (xs : List String) (rn : Nat) (acc : List (Nat × String)),
      loadLabelsAux rn acc (xs ++ [x]) =
        loadLabelsLine (loadLabelsAux rn acc xs) (rn + xs.length) x
  | [], rn, acc => by simp [loadLabelsAux]
  | y :: ys, rn, acc => by
      show loadLabelsAux (rn + 1) (loadLabelsLine acc rn y) (ys ++ [x]) =
        loadLabelsLine (loadLabelsAux (rn + 1) (loadLabelsLine acc rn y) ys)
          (rn + (y :: ys).length) x
      rw [loadLabelsAux_append x ys (rn + 1) (loadLabelsLine acc rn y)]
      have hn : rn + 1 + ys.length = rn + (y :: ys).length := by
        simp only [List.length_cons]; omega
      rw [hn]

theorem dictGet_dictInsert_self (k : Nat) (v : String) :
    ∀ m : List (Nat × String), dictGet (dictInsert m k v) k = some v := by
  have hmap : ∀ m : List (Nat × String), m.any (fun p => p.1 == k) = true →
      (m.map fun p => if p.1 == k then (k, v) else p).find? (fun p => p.1 == k) =
        some (k, v) := by
    intro m
    induction m with
    | nil => simp
    | cons p m ih =>
        intro h
        by_cases hp : p.1 == k
        · simp [hp, List.find?]
        · have hm : m.any (fun q => q.1 == k) = true := by
            simpa [List.any_cons, hp] using h
          simp only [List.map_cons, hp, Bool.false_eq_true, if_false, List.find?, cond_false]
          exact ih hm
  have happ : ∀ m : List (Nat × String), m.any (fun p => p.1 == k) = false →
      (m ++ [(k, v)]).find? (fun p => p.1 == k) = some (k, v) := by
    intro m
    induction m with
    | nil => simp [List.find?]
    | cons p m ih =>
        intro h
        simp only [List.any_cons, Bool.or_eq_false_iff] at h
        simp only [List.cons_append, List.find?, h.1, cond_false]
        exact ih h.2
  intro m
  unfold dictInsert dictGet
  cases h : m.any (fun p => p.1 == k) with
  | true => rw [if_pos rfl, hmap m h]; rfl
  | false => rw [if_neg (by simp), happ m h]; rfl

/-! The claim theorems. -/

/-- Claim C2: detect_objects returns exactly the records built from the first
count entries whose score is at least the threshold, in model output order; the
empty sequence, an ordinary value, results when no entry clears the threshold;
and with scores [0.9, 0.3, 0.5] and threshold 0.4 exactly the entries at
indices 0 and 2 survive, in that order. -/
theorem detect_objects_spec (b : List Box) (c : List Nat) (s : List Rat) (n : Nat) (t : Rat) :
    (detect_objects b c s n t =
        (truncatedRecords b c s n).filter (fun r => decide (t ≤ r.score)))
    ∧ ((∀ r ∈ truncatedRecords b c s n, r.score < t) → detect_objects b c s n t = [])
    ∧ detect_objects [⟨0, 0, 1, 1⟩, ⟨0, 0, 2, 2⟩, ⟨0, 0, 3, 3⟩] [10, 20, 30]
        [9/10, 3/10, 5/10] 3 (2/5) =
        [⟨⟨0, 0, 1, 1⟩, 10, 9/10⟩, ⟨⟨0, 0, 3, 3⟩, 30, 5/10⟩] := by
  refine ⟨detect_objects_eq_filter b c s n t, ?_, by with_unfolding_all decide⟩
  intro h
  rw [detect_objects_eq_filter, List.filter_eq_nil_iff]
  intro r hr
  simpa using not_le.mpr (h r hr)

/-- Witness for C2: with the single score 0.1 below threshold 0.4 the filtered
sequence is empty. -/
theorem detect_objects_spec_witness :
    (∀ r ∈ truncatedRecords [⟨0, 0, 1, 1⟩] [5] [1/10] 1, r.score < 2/5)
    ∧ detect_objects [⟨0, 0, 1, 1⟩] [5] [1/10] 1 (2/5) = [] :=
  ⟨by with_unfolding_all decide,
    (detect_objects_spec [⟨0, 0, 1, 1⟩] [5] [1/10] 1 (2/5)).2.1 (by with_unfolding_all decide)⟩

/-- Claim C3 (amended): each label-file line is processed by splitting the
stripped line at the first run of colon/whitespace characters into at most two
fields; with two fields and a pure non-negative-integer first field the integer
indexes the stripped remainder, otherwise the 0-based physical line number
indexes the FIRST FIELD (the text before the first separator run), not the
whole trimmed line; a later duplicate id overwrites the earlier entry; "2: cat"
yields the entry (2, "cat") and "dog" as line 0 yields (0, "dog"). -/
theorem load_labels_spec :
    (∀ (pre : List String) (content : String),
        load_labels (pre ++ [content]) =
          loadLabelsLine (load_labels pre) pre.length content)
    ∧ (∀ (m : List (Nat × String)) (k : Nat) (v : String),
        dictGet (dictInsert m k v) k = some v)
    ∧ load_labels ["2: cat"] = [(2, "cat")]
    ∧ load_labels ["dog"] = [(0, "dog")]
    ∧ dictGet (load_labels ["2: cat", "2: dog"]) 2 = some "dog" := by
  refine ⟨?_, fun m k v => dictGet_dictInsert_self k v m,
    by with_unfolding_all decide, by with_unfolding_all decide, by with_unfolding_all decide⟩
  intro pre content
  unfold load_labels
  simpa using loadLabelsAux_append content pre 0 []

/-- Counterexample to claim C3 as stated: on the two-field line "cat dog",
whose first field is not an integer, load_labels stores the first field "cat"
as the name, not the whole trimmed line "cat dog". -/
theorem load_labels_counterexample :
    load_labels ["cat dog"] = [(0, "cat")] ∧ ("cat" : String) ≠ "cat dog" :=
  ⟨by with_unfolding_all decide, by decide⟩

/-- Claim C4: for a first box with nonzero xmax and ymax, findPoints returns
exactly the spec's reduce_point of that box, the list [xmin/xmax, ymin/ymax]
computed on the relative coordinates; for the box (ymin 0.1, xmin 0.2,
ymax 0.4, xmax 0.8) the result is [0.25, 0.25]. -/
theorem reduce_point_spec (ymin xmin ymax xmax : Rat) (rest : List Box)
    (hx : xmax ≠ 0) (hy : ymax ≠ 0) :
    findPoints (⟨ymin, xmin, ymax, xmax⟩ :: rest) =
        Except.ok (some (reduce_point ⟨ymin, xmin, ymax, xmax⟩))
    ∧ reduce_point ⟨ymin, xmin, ymax, xmax⟩ = [xmin / xmax, ymin / ymax]
    ∧ findPoints [(⟨1/10, 2/10, 4/10, 8/10⟩ : Box)] = Except.ok (some [1/4, 1/4]) := by
  refine ⟨?_, rfl, by with_unfolding_all decide⟩
  simp [findPoints, reduce_point, hx, hy]

/-- Witness for C4 at the box of the claim's concrete instance. -/
theorem reduce_point_spec_witness :
    findPoints ((⟨1/10, 2/10, 4/10, 8/10⟩ : Box) :: []) =
      Except.ok (some (reduce_point ⟨1/10, 2/10, 4/10, 8/10⟩)) :=
  (reduce_point_spec (1/10) (2/10) (4/10) (8/10) [] (by norm_num) (by norm_num)).1

/-- Claim C7: on a non-empty coordinate list, findPoints raises the
division-by-zero error exactly when the first box has xmax = 0 or ymax = 0;
with both nonzero the two divisions are defined and the result is
[xmin/xmax, ymin/ymax] of the first box. -/
theorem findPoints_degenerate (c : Box) (cs : List Box) :
    ((findPoints (c :: cs) = Except.error ()) ↔ (c.xmax = 0 ∨ c.ymax = 0))
    ∧ (c.xmax ≠ 0 → c.ymax ≠ 0 →
        findPoints (c :: cs) = Except.ok (some [c.xmin / c.xmax, c.ymin / c.ymax])) := by
  constructor
  · by_cases hx : c.xmax = 0 <;> by_cases hy : c.ymax = 0 <;> simp [findPoints, hx, hy]
  · intro hx hy; simp [findPoints, hx, hy]

/-- Witness for C7: a zero xmax raises, a fully nonzero box does not. -/
theorem findPoints_degenerate_witness :
    findPoints [(⟨1/10, 2/10, 4/10, 0⟩ : Box)] = Except.error ()
    ∧ findPoints [(⟨1/2, 1/2, 1, 1⟩ : Box)] = Except.ok (some [1/2, 1/2]) := by
  constructor
  · exact (findPoints_degenerate ⟨1/10, 2/10, 4/10, 0⟩ []).1.mpr (Or.inl rfl)
  · have h := (findPoints_degenerate ⟨1/2, 1/2, 1, 1⟩ []).2 (by norm_num) (by norm_num)
    simpa using h

/-- Counterexample to claim C1 as stated: with raw boxes [B0, B1], scores
[0.3, 0.9] and threshold 0.4, the first (and only) filtered detection is the
one at index 1 carrying B1, whose reduce_point is [0.5, 0.5]; yet the published
Coordinates are [0.25, 0.25], the reduce_point of the raw index-0 box B0 - the
point does not come from the first filtered detection's bounding box. -/
theorem telemetry_point_counterexample :
    detect_objects [⟨1/10, 2/10, 4/10, 8/10⟩, ⟨1/2, 1/2, 1, 1⟩] [1, 2] [3/10, 9/10] 2 (2/5) =
        [⟨⟨1/2, 1/2, 1, 1⟩, 2, 9/10⟩]
    ∧ prepareTelemetry [⟨1/10, 2/10, 4/10, 8/10⟩, ⟨1/2, 1/2, 1, 1⟩] [1, 2] [3/10, 9/10] 2 (2/5)
        [(1, "cat"), (2, "dog")] =
        Except.ok ⟨"CameraPi", "0.9", some [1/4, 1/4], "dog"⟩
    ∧ reduce_point ⟨1/2, 1/2, 1, 1⟩ = [1/2, 1/2]
    ∧ (some [(1:Rat)/4, 1/4] : Option (List Rat)) ≠ some [1/2, 1/2] := by
  refine ⟨by with_unfolding_all decide, by with_unfolding_all decide,
    by with_unfolding_all decide, by with_unfolding_all decide⟩

/-- Claim C1 (amended): when the filtered detection sequence is non-empty, its
first element supplies the published label (the label-table name of its
class_id) and score (its score, as text), but the published point is
reduce_point of the FIRST RAW box of the boxes output tensor (index 0,
regardless of filtering), well-defined when that box has nonzero xmax and
ymax. -/
theorem telemetry_fields (boxes : List Box) (classes : List Nat) (scores : List Rat)
    (count : Nat) (t : Rat) (labels : List (Nat × String))
    (b0 : Box) (bs : List Box) (r : DetectionRecord) (rs : List DetectionRecord) (nm : String)
    (hb : boxes = b0 :: bs)
    (hd : detect_objects boxes classes scores count t = r :: rs)
    (hx : b0.xmax ≠ 0) (hy : b0.ymax ≠ 0)
    (hl : dictGet labels r.class_id = some nm) :
    prepareTelemetry boxes classes scores count t labels =
      Except.ok { sensorName := "CameraPi", score := pyStr r.score,
                  coordinates := some (reduce_point b0), classId := nm } := by
  subst hb
  simp only [prepareTelemetry, hd, findPoints, findLabels, findScore, hl, hx, hy,
    if_neg, buildPost, pyStrOfOptRat, pyStrOfOptStr, reduce_point]
  simp

/-- Witness for C1 (amended) at the counterexample's input. -/
theorem telemetry_fields_witness :
    prepareTelemetry [⟨1/10, 2/10, 4/10, 8/10⟩, ⟨1/2, 1/2, 1, 1⟩] [1, 2] [3/10, 9/10] 2 (2/5)
        [(1, "cat"), (2, "dog")] =
      Except.ok { sensorName := "CameraPi", score := pyStr (9/10),
                  coordinates := some (reduce_point ⟨1/10, 2/10, 4/10, 8/10⟩),
                  classId := "dog" } :=
  telemetry_fields [⟨1/10, 2/10, 4/10, 8/10⟩, ⟨1/2, 1/2, 1, 1⟩] [1, 2] [3/10, 9/10] 2 (2/5)
    [(1, "cat"), (2, "dog")] ⟨1/10, 2/10, 4/10, 8/10⟩ [⟨1/2, 1/2, 1, 1⟩]
    ⟨⟨1/2, 1/2, 1, 1⟩, 2, 9/10⟩ [] "dog" rfl (by with_unfolding_all decide)
    (by norm_num) (by norm_num) (by with_unfolding_all decide)

/-- Claim C6: on an empty filtered detection sequence findLabels and findScore
raise nothing and fall through to None, and the iteration still builds and
publishes a post whose Score and Class_ID fields are the string "None"
(provided the point computation on the raw boxes itself raises no
ZeroDivisionError, the failure mode covered by C7). -/
theorem empty_detections_telemetry (boxes : List Box) (classes : List Nat) (scores : List Rat)
    (count : Nat) (t : Rat) (labels : List (Nat × String)) (pt : Option (List Rat))
    (hempty : detect_objects boxes classes scores count t = [])
    (hpt : findPoints boxes = Except.ok pt) :
    findLabels [] labels = Except.ok none
    ∧ findScore [] labels = none
    ∧ prepareTelemetry boxes classes scores count t labels =
        Except.ok { sensorName := "CameraPi", score := "None", coordinates := pt,
                    classId := "None" } := by
  refine ⟨rfl, rfl, ?_⟩
  simp only [prepareTelemetry, hempty, hpt, findLabels, findScore, buildPost,
    pyStrOfOptRat, pyStrOfOptStr]

/-- Witness for C6: one raw box, one below-threshold score. -/
theorem empty_detections_telemetry_witness :
    prepareTelemetry [⟨1/10, 2/10, 4/10, 8/10⟩] [7] [1/10] 1 (2/5) [] =
      Except.ok { sensorName := "CameraPi", score := "None",
                  coordinates := some [1/4, 1/4], classId := "None" } :=
  (empty_detections_telemetry [⟨1/10, 2/10, 4/10, 8/10⟩] [7] [1/10] 1 (2/5) []
    (some [1/4, 1/4]) (by with_unfolding_all decide) (by with_unfolding_all decide)).2.2

/-- Claim C5: the authentication validation exits with status 2, before any
connection is attempted, for websocket mode with both certificate and key
supplied, and for non-websocket mode with either credential missing; this
holds for every configuration (an invalid mode also exits 2, earlier). -/
theorem auth_validation (a : Args) :
    (a.useWebsocket = true → pyTruthyStr a.certificatePath = true →
        pyTruthyStr a.privateKeyPath = true → mainSetup a = Except.error 2)
    ∧ (a.useWebsocket = false →
        (pyTruthyStr a.certificatePath = false ∨ pyTruthyStr a.privateKeyPath = false) →
        mainSetup a = Except.error 2) := by
  constructor
  · intro hw hc hk
    by_cases hm : a.mode ∈ AllowedActions <;>
      simp [mainSetup, validateConfig, validateMode, validateAuth, hm, hw, hc, hk]
  · intro hw hck
    by_cases hm : a.mode ∈ AllowedActions <;>
      rcases hck with hc | hc <;>
      simp [mainSetup, validateConfig, validateMode, validateAuth, hm, hw, hc]

/-- Witness for C5: both credential sets with websocket, and no credentials
without websocket, are each rejected with exit status 2. -/
theorem auth_validation_witness :
    mainSetup { useWebsocket := true, certificatePath := some "c", privateKeyPath := some "k",
                port := none, mode := "publish" } = Except.error 2
    ∧ mainSetup { useWebsocket := false, certificatePath := none, privateKeyPath := none,
                  port := none, mode := "publish" } = Except.error 2 := by
  constructor
  · exact (auth_validation _).1 rfl (by decide) (by decide)
  · exact (auth_validation _).2 rfl (Or.inl (by decide))

/-- Claim C10: every mode other than "publish" is rejected with exit status 2
before the connection setup completes; mode "publish" passes the mode check. -/
theorem mode_validation (a : Args) :
    (a.mode ≠ "publish" → mainSetup a = Except.error 2)
    ∧ (a.mode = "publish" → validateMode a.mode = Except.ok ()) := by
  constructor
  · intro h
    have hm : a.mode ∉ AllowedActions := by simpa [AllowedActions] using h
    simp [mainSetup, validateConfig, validateMode, hm]
  · intro h
    simp [validateMode, AllowedActions, h]

/-- Witness for C10: mode "subscribe" is rejected, mode "publish" passes. -/
theorem mode_validation_witness :
    mainSetup { useWebsocket := true, certificatePath := none, privateKeyPath := none,
                port := none, mode := "subscribe" } = Except.error 2
    ∧ validateMode "publish" = Except.ok () := by
  constructor
  · exact (mode_validation _).1 (by decide)
  · exact (mode_validation { useWebsocket := true, certificatePath := none, privateKeyPath := none, port := none, mode := "publish" }).2 rfl

/-- Counterexample to claim C8 as stated: port 0, explicitly supplied, is falsy
in Python, so the override is ignored and the default is applied in both
modes - an explicitly supplied port is not always used unchanged. -/
theorem port_zero_counterexample :
    effectivePort true (some 0) = some 443
    ∧ effectivePort false (some 0) = some 8883
    ∧ ((some 443 : Option Int) ≠ some 0) := ⟨by decide, by decide, by decide⟩

/-- Claim C8 (amended): with no explicit port the effective port is 443 in
websocket mode and 8883 otherwise; an explicitly supplied NONZERO port is used
unchanged in either mode; an explicit port 0 is treated as absent and replaced
by the mode's default. -/
theorem effectivePort_spec (ws : Bool) (p : Int) (hp : p ≠ 0) :
    effectivePort ws none = some (if ws then 443 else 8883)
    ∧ effectivePort ws (some p) = some p
    ∧ effectivePort ws (some 0) = some (if ws then 443 else 8883) := by
  refine ⟨?_, ?_, ?_⟩ <;> cases ws <;> simp [effectivePort, pyTruthyInt, hp]

/-- Witness for C8 (amended) at the nonzero port 8080. -/
theorem effectivePort_spec_witness :
    effectivePort true none = some (if true then 443 else 8883)
    ∧ effectivePort true (some 8080) = some 8080
    ∧ effectivePort true (some 0) = some (if true then 443 else 8883) :=
  effectivePort_spec true 8080 (by decide)

/-- Claim C9: for every reduced result the encoder builds a message with the
constant sensor name "CameraPi", the score converted to text, the coordinates
as the two-element [x, y] list, and the label converted to text; for every such
message the serialized form is a single JSON line (no newline character, all
control and non-ASCII characters escaped); decoding reproduces the original
field values, Score and Class_ID as text rather than native numbers, for every
label made of escape-representable characters (printable ASCII and the five
short-escape controls) and all coordinates with a terminating decimal
expansion, the image of Python floats; in particular the claim's concrete
message decodes back to sensor_name "CameraPi", score "0.9" (as text),
coordinates [0.25, 0.25], class_id "cat". -/
theorem encode_roundtrip :
    (∀ (x y score : Rat) (label : String),
        buildPost (some [x, y]) (some label) (some score) =
          { sensorName := "CameraPi", score := pyStr score,
            coordinates := some [x, y], classId := label })
    ∧ (∀ p : Post, '\n' ∉ (serializePost p).toList)
    ∧ (∀ (x y score : Rat) (label : String),
        (∀ c ∈ label.toList, jsonPlainChar c = true) →
        (x * 10 ^ 17).den = 1 → (y * 10 ^ 17).den = 1 →
        parsePost (serializePost (buildPost (some [x, y]) (some label) (some score))) =
          some (buildPost (some [x, y]) (some label) (some score)))
    ∧ pyStr (9/10) = "0.9"
    ∧ serializePost (buildPost (some [1/4, 1/4]) (some "cat") (some (9/10))) =
        "\x7b\"Sensor Name\": \"CameraPi\", \"Score\": \"0.9\", \"Coordinates\": [0.25, 0.25], \"Class_ID\": \"cat\"\x7d"
    ∧ parsePost (serializePost (buildPost (some [1/4, 1/4]) (some "cat") (some (9/10)))) =
        some { sensorName := "CameraPi", score := "0.9",
               coordinates := some [1/4, 1/4], classId := "cat" } := by
  refine ⟨fun x y score label => rfl, serializePost_one_line, ?_,
    by with_unfolding_all decide, by with_unfolding_all decide, by with_unfolding_all decide⟩
  intro x y score label hlab hx hy
  refine parsePost_serializePost (buildPost (some [x, y]) (some label) (some score)) x y
    ?_ ?_ ?_ rfl
    ⟨(x * 10 ^ 17).num, ((Rat.den_eq_one_iff _).mp hx).symm⟩
    ⟨(y * 10 ^ 17).num, ((Rat.den_eq_one_iff _).mp hy).symm⟩
  · show ∀ c ∈ "CameraPi".toList, jsonPlainChar c = true
    decide
  · show ∀ c ∈ pyStrChars score, jsonPlainChar c = true
    exact pyStrChars_plain score
  · exact hlab

/-- Witness for C9 at a second concrete reduced result, with every hypothesis
of the decode clause discharged. -/
theorem encode_roundtrip_witness :
    (∀ c ∈ "dog".toList, jsonPlainChar c = true)
    ∧ ((1/2 : Rat) * 10 ^ 17).den = 1 ∧ ((3/10 : Rat) * 10 ^ 17).den = 1
    ∧ parsePost (serializePost (buildPost (some [1/2, 3/10]) (some "dog") (some (1/4)))) =
        some (buildPost (some [1/2, 3/10]) (some "dog") (some (1/4))) :=
  ⟨by decide, by with_unfolding_all decide, by with_unfolding_all decide,
    encode_roundtrip.2.2.1 (1/2) (3/10) (1/4) "dog" (by decide)
      (by with_unfolding_all decide) (by with_unfolding_all decide)⟩

end DetectPicamera
